import Mathlib

/-!
Verification development for the stock-price data-collection repository
(`stockData_retrieve/stock_fetcher.py`).  The Python source is shallowly
embedded: dates are day numbers (`Nat`, days counted with the standard
civil-calendar formula), timestamps carry a day number plus minutes past
midnight, the holiday table is an explicit predicate parameter (the source
reads it from the `holidays` library), and the source's unbounded backward
loop is modelled with an explicit step budget (`fuel`), where `none`
means the loop has not returned within that many steps.
-/

/-- Day number of a civil date (valid for dates from year 1 on); the
standard era/year-of-era/day-of-year computation, so consecutive dates map
to consecutive numbers. -/
def daysFromCivil (y m d : Nat) : Nat :=
  let y1 := if m ≤ 2 then y - 1 else y
  let era := y1 / 400
  let yoe := y1 % 400
  let mp := (m + 9) % 12
  let doy := (153 * mp + 2) / 5 + d - 1
  let doe := yoe * 365 + yoe / 4 - yoe / 100 + doy
  era * 146097 + doe

/-- Weekday of a day number, Monday = 0 .. Sunday = 6, matching Python's
`datetime.weekday()` (day `daysFromCivil 1970 1 1` is a Thursday). -/
def weekday (d : Nat) : Nat := (d + 2) % 7

/-- Embedding of `is_trading_day` (stock_fetcher.py lines 26-46): false on
Saturday/Sunday (`weekday() >= 5`), false when the date is in the holiday
table `hol` (the source's `TW_HOLIDAYS`), true otherwise. -/
def is_trading_day (hol : Nat → Bool) (d : Nat) : Bool :=
  if 5 ≤ weekday d then false
  else if hol d then false
  else true

/-- Embedding of `find_last_trading_day` (lines 48-57).  The source steps
`target_date` back one day at a time with no bound; `fuel` counts the
loop iterations we are willing to observe, and `none` means the loop has
still not returned after `fuel` steps. -/
def find_last_trading_day (hol : Nat → Bool) : Nat → Nat → Option Nat
  | 0, _ => none
  | fuel + 1, d => if is_trading_day hol d then some d else find_last_trading_day hol fuel (d - 1)

/-- A current timestamp in the Taipei timezone: the day number plus the
minutes past midnight (the source compares `now_tst` with a 16:00 cutoff
on the same day, so only the time of day matters). -/
structure Now where
  day : Nat
  minutes : Nat
deriving DecidableEq

/-- The 16:00 publication cutoff of `main` (line 173), in minutes past
midnight. -/
def cutoffMinutes : Nat := 16 * 60

/-- Embedding of the three-way date resolution in `main` (lines 185-190):
trading day past the cutoff builds on today, trading day before the cutoff
searches back from yesterday, non-trading day searches back from today. -/
def resolveTargetDate (hol : Nat → Bool) (fuel : Nat) (now : Now) : Option Nat :=
  if is_trading_day hol now.day && decide (cutoffMinutes ≤ now.minutes) then
    some now.day
  else if is_trading_day hol now.day && decide (now.minutes < cutoffMinutes) then
    find_last_trading_day hol fuel (now.day - 1)
  else
    find_last_trading_day hol fuel now.day

/-- A calendar with no holidays at all: weekends are the only
non-trading days. -/
def noHolidays : Nat → Bool := fun _ => false

/-- A malformed calendar marking every single day as a holiday. -/
def everyDayHoliday : Nat → Bool := fun _ => true

-- Basic facts about the bounded backward search.

theorem find_last_spec (hol : Nat → Bool) :
    ∀ (fuel d r : Nat), find_last_trading_day hol fuel d = some r →
      is_trading_day hol r = true ∧ r ≤ d := by
  intro fuel
  induction fuel with
  | zero => intro d r h; simp [find_last_trading_day] at h
  | succ f ih =>
    intro d r h
    rw [find_last_trading_day] at h
    by_cases ht : is_trading_day hol d
    · rw [if_pos ht] at h
      cases h
      exact ⟨ht, Nat.le_refl _⟩
    · rw [if_neg ht] at h
      rcases ih (d - 1) r h with ⟨h1, h2⟩
      exact ⟨h1, Nat.le_trans h2 (Nat.sub_le d 1)⟩

theorem find_last_on_trading (hol : Nat → Bool) (fuel d : Nat)
    (h : is_trading_day hol d = true) :
    find_last_trading_day hol (fuel + 1) d = some d := by
  rw [find_last_trading_day, if_pos h]

/-!
### Per-cell cleaning and numeric coercion

Lines 100-104 of the source clean each designated numeric column with
`.str.replace(',', '').str.replace('--', '0').str.replace('-', '0').str.strip()`
and then `pd.to_numeric(..., errors='coerce')`.  We model a cell as a
`List Char` and the coerced value as `Option ℚ` (`none` is pandas' `NaN`,
the missing-value marker).  Exponent notation (`"1e3"`) is not modelled;
no cleaned cell in the claims uses it.
-/

/-- `str.replace(',', '')`: drop every comma. -/
def removeCommas (cs : List Char) : List Char := cs.filter (fun c => c ≠ ',')

/-- `str.replace('--', '0')`: replace left-to-right non-overlapping
occurrences of `--` by `0`. -/
def replaceDoubleDash : List Char → List Char
  | [] => []
  | '-' :: '-' :: rest => '0' :: replaceDoubleDash rest
  | c :: rest => c :: replaceDoubleDash rest

/-- `str.replace('-', '0')`: replace every remaining dash by `0`. -/
def replaceDash (cs : List Char) : List Char :=
  cs.map (fun c => if c = '-' then '0' else c)

/-- Whitespace as stripped by Python's `str.strip()` (the forms that occur
in the feed). -/
def isSpaceChar (c : Char) : Bool := c = ' ' || c = '\t' || c = '\n' || c = '\r'

/-- `str.strip()`: drop whitespace from both ends. -/
def stripChars (cs : List Char) : List Char :=
  ((cs.dropWhile isSpaceChar).reverse.dropWhile isSpaceChar).reverse

/-- The full cleaning chain of line 103, in source order. -/
def clean (cs : List Char) : List Char :=
  stripChars (replaceDash (replaceDoubleDash (removeCommas cs)))

/-- Numeric value of a digit character. -/
def digitValN (c : Char) : Nat := c.toNat - 48

/-- Value of a digit string, most significant digit first. -/
def digitsValN (cs : List Char) : Nat :=
  cs.foldl (fun a c => a * 10 + digitValN c) 0

/-- Unsigned decimal parse, as accepted by `pd.to_numeric` after cleaning:
digits, optionally a decimal point and fractional digits, at least one
digit in total. -/
def parseUnsigned (cs : List Char) : Option ℚ :=
  let intPart := cs.takeWhile Char.isDigit
  let rest := cs.dropWhile Char.isDigit
  match rest with
  | [] => if intPart.isEmpty then none else some (digitsValN intPart : ℚ)
  | '.' :: frac =>
    if frac.all Char.isDigit && !(intPart.isEmpty && frac.isEmpty) then
      some ((digitsValN intPart : ℚ) + (digitsValN frac : ℚ) / (10 : ℚ) ^ frac.length)
    else none
  | _ => none

/-- Signed decimal parse (`pd.to_numeric(..., errors='coerce')` on one
cell): `none` is the coercion failure, i.e. `NaN`. -/
def parseDecimal (cs : List Char) : Option ℚ :=
  match cs with
  | '-' :: rest => (parseUnsigned rest).map (fun q => -q)
  | '+' :: rest => parseUnsigned rest
  | _ => parseUnsigned cs

/-- Clean one raw cell and coerce it to a number: the per-cell effect of
lines 103-104 on every designated numeric column. -/
def cleanParse (s : String) : Option ℚ := parseDecimal (clean s.toList)

/-!
### Rendering a coerced column back to strings

Line 116 filters on `df['Stock_ID'].astype(str).str.match(r'^\d{4}$')`,
but line 95 lists `證券代號` among the columns cleaned and coerced at
lines 100-104, so by the time of the filter the column is numeric.
Pandas gives the coerced column an integer dtype exactly when every cell
is an integer literal; otherwise the column is a float dtype, integers
render with a trailing `.0`, and `NaN` renders as `"nan"`.
-/

/-- Decimal digits of `n`, least significant first, computed with an
explicit step budget (`n` steps always suffice). -/
def digitsRevFuel : Nat → Nat → List Nat
  | 0, _ => []
  | fuel + 1, n => if n = 0 then [] else n % 10 :: digitsRevFuel fuel (n / 10)

/-- Character for a single decimal digit. -/
def digitCh (d : Nat) : Char := Char.ofNat (48 + d)

/-- Decimal rendering of a natural number, as Python's `str`. -/
def natStr (n : Nat) : List Char :=
  if n = 0 then ['0'] else ((digitsRevFuel n n).reverse.map digitCh)

/-- `astype(str)` of an integer cell. -/
def intStr (q : ℚ) : List Char :=
  if q.num < 0 then '-' :: natStr q.num.natAbs else natStr q.num.natAbs

/-- Fractional digits of `0 ≤ q < 1`, at most `fuel` of them. -/
def fracDigits : Nat → ℚ → List Char
  | 0, _ => []
  | fuel + 1, q =>
    if q = 0 then []
    else digitCh (q * 10).floor.natAbs :: fracDigits fuel (q * 10 - ((q * 10).floor : ℚ))

/-- `astype(str)` of a non-negative float cell: integer part, a decimal
point, then the fractional digits (`.0` when integral; long expansions
truncated, which no claim exercises). -/
def floatStr (q : ℚ) : List Char :=
  let fr := fracDigits 17 (q - (q.floor : ℚ))
  natStr q.floor.natAbs ++ '.' :: (if fr.isEmpty then ['0'] else fr)

/-- `astype(str)` of one cell of the coerced security-code column:
`NaN` renders `"nan"`; a number renders as an integer when the whole
column has integer dtype (`allInt`) and as a float otherwise. -/
def renderCode (allInt : Bool) (v : Option ℚ) : List Char :=
  match v with
  | none => ['n', 'a', 'n']
  | some q => if allInt then intStr q else floatStr q

/-- `str.match(r'^\d{4}$')`: exactly four digit characters. -/
def matchFourDigits (cs : List Char) : Bool :=
  cs.length = 4 && cs.all Char.isDigit

/-- Does a cleaned cell read as an integer literal?  `pd.to_numeric`
gives the column an integer dtype exactly when every cell does. -/
def isIntLit (cs : List Char) : Bool :=
  match cs with
  | '-' :: rest => !rest.isEmpty && rest.all Char.isDigit
  | '+' :: rest => !rest.isEmpty && rest.all Char.isDigit
  | _ => !cs.isEmpty && cs.all Char.isDigit

/-- `astype(int)` on a float cell truncates toward zero (Python's `int`). -/
def pyTrunc (q : ℚ) : Int := q.num.tdiv (q.den : Int)

/-!
### The provider table and the normalizing pipeline

`fetch_twse_daily_summary` (lines 65-127) reads the JSON envelope,
branches on the `tables` key, and runs the cleaning / renaming /
filtering pipeline of lines 90-119 on table index 8.  A table is a field
list plus parallel string rows; the output rows keep the columns the rest
of the program reads (`Trade_Date`, `Stock_ID`, `Close_Price`, `Volume`).
-/

/-- One named table of the provider response: a field list and the data
rows (cells parallel to the fields). -/
structure TableData where
  fields : List String
  data : List (List String)
deriving DecidableEq

/-- A normalized output row, restricted to the columns the program uses
downstream.  `stockId` and `closePrice` are the coerced numeric columns
(`none` = `NaN`, and `closePrice` is also `none` when the provider field
is absent); `volume` is the integer column of line 114. -/
structure CanonRow where
  tradeDate : String
  stockId : Option ℚ
  closePrice : Option ℚ
  volume : Int
deriving DecidableEq

/-- Cell of a row under a field name (pandas column lookup). -/
def cellAt (fields : List String) (row : List String) (name : String) : String :=
  match fields.indexOf? name with
  | some i => row.getD i ""
  | none => ""

/-- The raw security-code cell of a row. -/
def codeCell (t : TableData) (row : List String) : String :=
  cellAt t.fields row "證券代號"

/-- Integer dtype test for the coerced security-code column: every
cleaned cell is an integer literal. -/
def allIntCodes (t : TableData) : Bool :=
  t.data.all (fun r => isIntLit (clean (codeCell t r).toList))

/-- The row filter of line 116: the coerced code cell, rendered back to a
string under the column dtype, must match `^\d{4}$`. -/
def keepRowB (aInt : Bool) (t : TableData) (row : List String) : Bool :=
  matchFourDigits (renderCode aInt (cleanParse (codeCell t row)))

/-- `%Y%m%d` → `%Y-%m-%d` (line 107). -/
def formatDate (s : String) : String :=
  let cs := s.toList
  String.mk (cs.take 4 ++ '-' :: (cs.drop 4).take 2 ++ '-' :: (cs.drop 6).take 2)

/-- Build one normalized row (lines 100-114 applied to one data row):
numeric columns cleaned and coerced, the trade date prepended, `Volume`
with `NaN` replaced by 0 and truncated to an integer. -/
def mkRow (dateFmt : String) (t : TableData) (row : List String) : CanonRow :=
  { tradeDate := dateFmt
    stockId := cleanParse (codeCell t row)
    closePrice :=
      if "收盤價" ∈ t.fields then cleanParse (cellAt t.fields row "收盤價") else none
    volume := pyTrunc (((cleanParse (cellAt t.fields row "成交股數")).getD 0)) }

/-- Uncaught Python faults of the component: list-index and column-name
errors are not `requests.RequestException`s, so the `except` at line 125
does not catch them. -/
inductive PyFault where
  | indexError
  | keyError
deriving DecidableEq

/-- The pipeline of lines 90-119 on one table.  Reading the `Volume`
column (line 114) and the `Stock_ID` column (line 116) fault when the
provider field they were renamed from is missing; otherwise every row is
cleaned, the date inserted, and the four-digit filter applied. -/
def processTable (dateStr : String) (t : TableData) : Except PyFault (List CanonRow) :=
  if "成交股數" ∈ t.fields then
    if "證券代號" ∈ t.fields then
      let aInt := allIntCodes t
      .ok ((t.data.filter (keepRowB aInt t)).map (mkRow (formatDate dateStr) t))
    else .error .keyError
  else .error .keyError

/-- The JSON envelope as the source reads it: an optional `tables` array
(nested shape), and optional top-level `fields` / `data` (the flat shape
of the provider's older revision, which lines 83-122 never read). -/
structure Resp where
  tables : Option (List TableData)
  topFields : Option (List String)
  topData : Option (List (List String))
deriving DecidableEq

/-- Network-level failures: every constructor is a
`requests.RequestException` subclass (timeout, connection error, the
`raise_for_status` error for a non-2xx code, and the JSON decode error
raised by `response.json()`). -/
inductive NetErr where
  | timeout
  | connError
  | httpStatus (code : Nat)
  | jsonDecode
deriving DecidableEq

/-- The shape dispatch of lines 83-122: a present, non-empty `tables`
array has its index-8 table processed (index out of range is an uncaught
`IndexError`); anything else — `tables` absent or empty, including the
flat shape — returns the empty frame. -/
def fetchParse (dateStr : String) (r : Resp) : Except PyFault (List CanonRow) :=
  match r.tables with
  | some ts =>
    if ts.isEmpty then .ok []
    else
      match ts[8]? with
      | some t8 => processTable dateStr t8
      | none => .error .indexError
  | none => .ok []

/-- Embedding of `fetch_twse_daily_summary` (lines 65-127).  The input is
the outcome of the HTTP-and-JSON step: a network error or a decoded
envelope.  The Boolean records whether the `except` branch printed its
error message.  Faults inside the pipeline pass through uncaught. -/
def fetch_twse_daily_summary (dateStr : String) (resp : Except NetErr Resp) :
    Except PyFault (List CanonRow) × Bool :=
  match resp with
  | .error _ => (.ok [], true)
  | .ok r => (fetchParse dateStr r, false)

/-!
### The orchestrator (`main`, lines 164-228)

The fetching stage of `main` starts after the three-way date resolution:
existence check, future-date guard, fetch, save.  The persistence store
(`is_data_fetched` / `save_to_sqlite`) is a map from day numbers to the
saved dataset; `none` means no artifact file exists for that date.
-/

/-- Inverse of `daysFromCivil`: the civil `(year, month, day)` of a day
number, used to format the date for the provider URL. -/
def civilFromDays (z : Nat) : Nat × Nat × Nat :=
  let era := z / 146097
  let doe := z % 146097
  let yoe := (doe - doe / 1460 + doe / 36524 - doe / 146096) / 365
  let y := yoe + era * 400
  let doy := doe - (365 * yoe + yoe / 4 - yoe / 100)
  let mp := (5 * doy + 2) / 153
  let d := doy - (153 * mp + 2) / 5 + 1
  let m := if mp < 10 then mp + 3 else mp - 9
  (if m ≤ 2 then y + 1 else y, m, d)

/-- Left-pad a rendered number with zeros to width `w`. -/
def padNat (w n : Nat) : List Char :=
  let s := natStr n
  List.replicate (w - s.length) '0' ++ s

/-- `strftime('%Y%m%d')` of a day number. -/
def dateStr8 (day : Nat) : String :=
  let c := civilFromDays day
  String.mk (padNat 4 c.1 ++ padNat 2 c.2.1 ++ padNat 2 c.2.2)

/-- The outcome labels of the fetching stage (spec §3 `FetchOutcome`),
one per branch of lines 194-223. -/
inductive Outcome where
  | already_present
  | fetched_and_saved
  | fetched_empty
  | aborted_future_date
deriving DecidableEq

/-- Result of the fetching stage: the branch taken, the reported
`final_output_date` (`none` if the reporting fallback itself never
returns), how many network requests were made, and the store afterwards. -/
structure StageResult where
  outcome : Outcome
  finalDate : Option Nat
  netCalls : Nat
  store : Nat → Option (List CanonRow)

/-- Embedding of `is_data_fetched` (lines 59-63): the artifact file for
the date exists in the store. -/
def is_data_fetched (store : Nat → Option (List CanonRow)) (d : Nat) : Bool :=
  (store d).isSome

/-- Embedding of the fetching stage of `main` (lines 194-223).  `store`
maps a day number to its persisted dataset keyed as `is_data_fetched`
keys it; `resp` is what the single network request would
deliver; `target` is the resolved `target_check_date`.  In source order:
already-fetched check, future-date guard (reporting falls back to
`find_last_trading_day(now)`), then fetch and conditional save
(`save_to_sqlite` replaces the artifact under the date key). -/
def fetchStage (hol : Nat → Bool) (fuel : Nat) (store : Nat → Option (List CanonRow))
    (resp : Except NetErr Resp) (now : Now) (target : Nat) :
    Except PyFault StageResult :=
  if is_data_fetched store target then
    .ok ⟨.already_present, some target, 0, store⟩
  else if now.day < target then
    .ok ⟨.aborted_future_date, find_last_trading_day hol fuel now.day, 0, store⟩
  else
    match fetch_twse_daily_summary (dateStr8 target) resp with
    | (.error f, _) => .error f
    | (.ok rows, _) =>
      if rows.isEmpty then .ok ⟨.fetched_empty, some target, 1, store⟩
      else .ok ⟨.fetched_and_saved, some target, 1,
        fun d => if d = target then some rows else store d⟩

/-!
### Claims about the calendar and the date resolver
-/

/-- Branch condition of line 185: trading day, at or past the cutoff. -/
def condA (hol : Nat → Bool) (now : Now) : Prop :=
  is_trading_day hol now.day = true ∧ cutoffMinutes ≤ now.minutes

/-- Branch condition of line 187: trading day, before the cutoff. -/
def condB (hol : Nat → Bool) (now : Now) : Prop :=
  is_trading_day hol now.day = true ∧ now.minutes < cutoffMinutes

/-- Branch condition of line 189: not a trading day. -/
def condC (hol : Nat → Bool) (now : Now) : Prop :=
  is_trading_day hol now.day = false

instance (hol : Nat → Bool) (now : Now) : Decidable (condA hol now) := by
  unfold condA; infer_instance

instance (hol : Nat → Bool) (now : Now) : Decidable (condB hol now) := by
  unfold condB; infer_instance

instance (hol : Nat → Bool) (now : Now) : Decidable (condC hol now) := by
  unfold condC; infer_instance

/-- C1: the date resolution evaluates exactly one of the three cases —
trading day past the cutoff keeps today, trading day before the cutoff
takes `find_last_trading_day (today - 1)`, a non-trading day takes
`find_last_trading_day today`; the conditions are exhaustive and mutually
exclusive and the output is the single date of the selected case.  On
Monday 2024-09-16 at 10:00 with Monday a trading day, the target is
Friday 2024-09-13. -/
theorem C1_date_resolution_three_cases (hol : Nat → Bool) (fuel : Nat) (now : Now) :
    ((condA hol now ∧ ¬condB hol now ∧ ¬condC hol now) ∨
     (¬condA hol now ∧ condB hol now ∧ ¬condC hol now) ∨
     (¬condA hol now ∧ ¬condB hol now ∧ condC hol now)) ∧
    (condA hol now → resolveTargetDate hol fuel now = some now.day) ∧
    (condB hol now →
      resolveTargetDate hol fuel now = find_last_trading_day hol fuel (now.day - 1)) ∧
    (condC hol now →
      resolveTargetDate hol fuel now = find_last_trading_day hol fuel now.day) ∧
    resolveTargetDate noHolidays 4 ⟨daysFromCivil 2024 9 16, 600⟩ =
      some (daysFromCivil 2024 9 13) := by
  refine ⟨?_, ?_, ?_, ?_, by decide⟩
  · simp only [condA, condB, condC]
    by_cases ht : is_trading_day hol now.day = true
    · by_cases hc : cutoffMinutes ≤ now.minutes
      · exact Or.inl ⟨⟨ht, hc⟩, fun hb => absurd hb.2 (by omega),
          fun hC => by rw [ht] at hC; cases hC⟩
      · exact Or.inr (Or.inl ⟨fun ha => absurd ha.2 hc, ⟨ht, by omega⟩,
          fun hC => by rw [ht] at hC; cases hC⟩)
    · have ht' : is_trading_day hol now.day = false := by
        cases h : is_trading_day hol now.day
        · rfl
        · exact absurd h ht
      exact Or.inr (Or.inr ⟨fun ha => ht ha.1, fun hb => ht hb.1, ht'⟩)
  · intro ⟨ht, hc⟩
    unfold resolveTargetDate
    rw [if_pos (by simp [ht, hc])]
  · intro ⟨ht, hc⟩
    unfold resolveTargetDate
    rw [if_neg (by simp [ht]; omega), if_pos (by simp [ht, hc])]
  · intro hC
    unfold condC at hC
    unfold resolveTargetDate
    rw [if_neg (by simp [hC]), if_neg (by simp [hC])]

/-- Witness for C1: the Monday-morning scenario satisfies the
before-cutoff trading-day condition and resolves through the
yesterday-based search. -/
theorem C1_date_resolution_witness :
    condB noHolidays ⟨daysFromCivil 2024 9 16, 600⟩ ∧
    resolveTargetDate noHolidays 4 ⟨daysFromCivil 2024 9 16, 600⟩ =
      find_last_trading_day noHolidays 4 (daysFromCivil 2024 9 16 - 1) :=
  ⟨by decide,
   (C1_date_resolution_three_cases noHolidays 4 ⟨daysFromCivil 2024 9 16, 600⟩).2.2.1
     (by decide)⟩

/-- C2: at the failing input — a malformed calendar marking every day a
holiday — the backward search of `find_last_trading_day` has not returned
after any number of loop iterations: the code loops unbounded, and no
`CalendarExhausted` signal exists in it. -/
theorem C2_malformed_calendar_never_terminates :
    ∀ (fuel d : Nat), find_last_trading_day everyDayHoliday fuel d = none := by
  intro fuel
  induction fuel with
  | zero => intro d; rfl
  | succ f ih =>
    intro d
    have hnt : is_trading_day everyDayHoliday d = false := by
      unfold is_trading_day everyDayHoliday
      split <;> simp
    rw [find_last_trading_day, if_neg (by rw [hnt]; exact Bool.false_ne_true)]
    exact ih (d - 1)

/-- C9: `find_last_trading_day` is idempotent — whenever the search
returns a date within some iteration budget, running it again on that
date returns the same date within the same budget. -/
theorem C9_find_last_trading_day_idempotent (hol : Nat → Bool) (fuel d r : Nat)
    (h : find_last_trading_day hol fuel d = some r) :
    find_last_trading_day hol fuel r = some r := by
  have hspec := find_last_spec hol fuel d r h
  match fuel with
  | 0 => exact absurd h (by simp [find_last_trading_day])
  | f + 1 => exact find_last_on_trading hol f r hspec.1

/-- Witness for C9: searching back from Sunday 2024-09-15 lands on
Friday 2024-09-13, and searching from that Friday returns it again. -/
theorem C9_find_last_trading_day_witness :
    find_last_trading_day noHolidays 4 (daysFromCivil 2024 9 15) =
      some (daysFromCivil 2024 9 13) ∧
    find_last_trading_day noHolidays 4 (daysFromCivil 2024 9 13) =
      some (daysFromCivil 2024 9 13) :=
  ⟨by decide,
   C9_find_last_trading_day_idempotent noHolidays 4 (daysFromCivil 2024 9 15)
     (daysFromCivil 2024 9 13) (by decide)⟩

/-- C10 (implicit): whenever the three-way resolution returns a target
date, that date is a trading day and is not later than today. -/
theorem C10_resolver_invariant (hol : Nat → Bool) (fuel : Nat) (now : Now) (t : Nat)
    (h : resolveTargetDate hol fuel now = some t) :
    is_trading_day hol t = true ∧ t ≤ now.day := by
  unfold resolveTargetDate at h
  split at h
  · rename_i hcond
    cases h
    simp only [Bool.and_eq_true] at hcond
    exact ⟨hcond.1, Nat.le_refl _⟩
  · split at h
    · rcases find_last_spec hol fuel (now.day - 1) t h with ⟨h1, h2⟩
      exact ⟨h1, Nat.le_trans h2 (Nat.sub_le _ _)⟩
    · exact find_last_spec hol fuel now.day t h

/-- Witness for C10: the Monday-morning scenario resolves to Friday
2024-09-13, a trading day no later than Monday. -/
theorem C10_resolver_invariant_witness :
    is_trading_day noHolidays (daysFromCivil 2024 9 13) = true ∧
    daysFromCivil 2024 9 13 ≤ daysFromCivil 2024 9 16 :=
  C10_resolver_invariant noHolidays 4 ⟨daysFromCivil 2024 9 16, 600⟩
    (daysFromCivil 2024 9 13) (by decide)

/-!
### Claims about the fetch component and the orchestrator
-/

/-- C4: every network-level failure — timeout, connection error, non-2xx
status, malformed JSON — is caught by the fetch and turned into an empty
result with the error message reported; none of them escapes as a fault. -/
theorem C4_network_failures_yield_empty (dateStr : String) (e : NetErr) :
    fetch_twse_daily_summary dateStr (.error e) = (.ok [], true) := rfl

/-- C7: a target date whose dataset already exists short-circuits the
stage: outcome `already_present`, zero network calls, and the store —
hence the persisted artifact — returned unchanged; and a second run over
the unchanged store, with any provider response, does exactly the same. -/
theorem C7_already_present_idempotent (hol : Nat → Bool) (fuel : Nat)
    (store : Nat → Option (List CanonRow)) (resp : Except NetErr Resp)
    (now : Now) (target : Nat) (h : is_data_fetched store target = true) :
    fetchStage hol fuel store resp now target =
      .ok ⟨.already_present, some target, 0, store⟩ ∧
    ∀ resp2 : Except NetErr Resp,
      fetchStage hol fuel store resp2 now target =
        .ok ⟨.already_present, some target, 0, store⟩ := by
  constructor
  · unfold fetchStage; rw [if_pos h]
  · intro resp2; unfold fetchStage; rw [if_pos h]

/-- Witness for C7: a store already holding day 5. -/
theorem C7_already_present_witness :
    is_data_fetched (fun d => if d = 5 then some ([] : List CanonRow) else none) 5 = true ∧
    fetchStage noHolidays 4 (fun d => if d = 5 then some ([] : List CanonRow) else none)
        (.error .timeout) ⟨7, 600⟩ 5 =
      .ok ⟨.already_present, some 5, 0,
        fun d => if d = 5 then some ([] : List CanonRow) else none⟩ :=
  ⟨rfl,
   (C7_already_present_idempotent noHolidays 4
     (fun d => if d = 5 then some ([] : List CanonRow) else none)
     (.error .timeout) ⟨7, 600⟩ 5 rfl).1⟩

/-- C8: with the target date not yet persisted and strictly later than
the current local date, the stage aborts — outcome
`aborted_future_date`, zero network calls, store unchanged — and the
reported date is `find_last_trading_day` of today, for reporting only. -/
theorem C8_future_date_guard (hol : Nat → Bool) (fuel : Nat)
    (store : Nat → Option (List CanonRow)) (resp : Except NetErr Resp)
    (now : Now) (target : Nat)
    (h1 : store target = none) (h2 : now.day < target) :
    fetchStage hol fuel store resp now target =
      .ok ⟨.aborted_future_date, find_last_trading_day hol fuel now.day, 0, store⟩ := by
  unfold fetchStage
  rw [if_neg (by unfold is_data_fetched; rw [h1]; simp), if_pos h2]

/-- Witness for C8: an empty store and a target five days in the future
of Monday 2024-09-16. -/
theorem C8_future_date_guard_witness :
    ((fun _ => none : Nat → Option (List CanonRow)) (daysFromCivil 2024 9 16 + 5) = none) ∧
    daysFromCivil 2024 9 16 < daysFromCivil 2024 9 16 + 5 ∧
    fetchStage noHolidays 4 (fun _ => none) (.error .timeout)
        ⟨daysFromCivil 2024 9 16, 600⟩ (daysFromCivil 2024 9 16 + 5) =
      .ok ⟨.aborted_future_date,
        find_last_trading_day noHolidays 4 (daysFromCivil 2024 9 16), 0, fun _ => none⟩ :=
  ⟨rfl, by omega,
   C8_future_date_guard noHolidays 4 (fun _ => none) (.error .timeout)
     ⟨daysFromCivil 2024 9 16, 600⟩ (daysFromCivil 2024 9 16 + 5) rfl
     (by show daysFromCivil 2024 9 16 < daysFromCivil 2024 9 16 + 5; omega)⟩

/-!
### Claims about the response shapes and the per-cell cleaning
-/

/-- C3 counterexample: a flat-shape response — top-level field list with a
parallel, non-empty row list, no `tables` key — is not parsed: the fetch
returns the empty sequence even though the rows are present and usable,
so the flat shape is not supported. -/
theorem C3_flat_shape_not_supported :
    (fetch_twse_daily_summary "20240913"
        (.ok ⟨none, some ["證券代號", "成交股數"], some [["2330", "100"]]⟩)).1 = .ok [] ∧
    ([["2330", "100"]] : List (List String)) ≠ [] :=
  ⟨rfl, by decide⟩

/-- C3 amended: only the nested shape is parsed.  Any response without a
non-empty `tables` array — the flat shape included — yields the empty
sequence without error; a nested response whose index-8 table has the
expected fields and an empty row list also yields the empty sequence; and
a non-empty `tables` array with fewer than nine tables is an uncaught
index fault. -/
theorem C3_nested_only_shape_handling :
    (∀ (dateStr : String) (f : Option (List String)) (dt : Option (List (List String))),
      (fetch_twse_daily_summary dateStr (.ok ⟨none, f, dt⟩)).1 = .ok []) ∧
    (∀ (dateStr : String) (f : Option (List String)) (dt : Option (List (List String))),
      (fetch_twse_daily_summary dateStr (.ok ⟨some [], f, dt⟩)).1 = .ok []) ∧
    (∀ (dateStr : String) (ts : List TableData) (fields : List String),
      ts.length = 8 → "成交股數" ∈ fields → "證券代號" ∈ fields →
      (fetch_twse_daily_summary dateStr
          (.ok ⟨some (ts ++ [⟨fields, []⟩]), none, none⟩)).1 = .ok []) ∧
    (∀ (dateStr : String) (ts : List TableData), ts ≠ [] → ts.length ≤ 8 →
      (fetch_twse_daily_summary dateStr (.ok ⟨some ts, none, none⟩)).1 =
        .error .indexError) := by
  have hunf : ∀ (dateStr : String) (ts : List TableData) (f : Option (List String))
      (dt : Option (List (List String))),
      fetchParse dateStr ⟨some ts, f, dt⟩ =
        if ts.isEmpty then .ok []
        else
          match ts[8]? with
          | some t8 => processTable dateStr t8
          | none => .error .indexError := fun _ _ _ _ => rfl
  refine ⟨fun _ _ _ => rfl, fun _ _ _ => rfl, ?_, ?_⟩
  · intro dateStr ts fields h8 hv hi
    show fetchParse dateStr ⟨some (ts ++ [⟨fields, []⟩]), none, none⟩ = .ok []
    rw [hunf]
    rw [if_neg (by simp [List.isEmpty_iff])]
    rw [List.getElem?_append_right (by omega)]
    simp only [h8, Nat.sub_self]
    show processTable dateStr ⟨fields, []⟩ = .ok []
    unfold processTable
    rw [if_pos hv, if_pos hi]
    rfl
  · intro dateStr ts hne hlen
    show fetchParse dateStr ⟨some ts, none, none⟩ = .error .indexError
    rw [hunf]
    rw [if_neg (by simp [List.isEmpty_iff, hne])]
    rw [List.getElem?_eq_none hlen]

/-- Witness for C3: eight empty filler tables followed by a ninth with
the expected fields and no rows yield the empty sequence, and a
single-table array faults on the index-8 access. -/
theorem C3_nested_only_shape_witness :
    (List.replicate 8 (⟨[], []⟩ : TableData)).length = 8 ∧
    ("成交股數" ∈ (["證券代號", "成交股數"] : List String)) ∧
    (fetch_twse_daily_summary "20240913"
        (.ok ⟨some (List.replicate 8 (⟨[], []⟩ : TableData) ++
          [⟨["證券代號", "成交股數"], []⟩]), none, none⟩)).1 = .ok [] ∧
    (fetch_twse_daily_summary "20240913"
        (.ok ⟨some [⟨[], []⟩], none, none⟩)).1 = .error .indexError :=
  ⟨rfl, by decide,
   C3_nested_only_shape_handling.2.2.1 "20240913" (List.replicate 8 ⟨[], []⟩)
     ["證券代號", "成交股數"] rfl (by decide) (by decide),
   C3_nested_only_shape_handling.2.2.2 "20240913" [⟨[], []⟩] (by decide) (by decide)⟩

/-- C5 counterexample: a bare dash is cleaned to `"0"` (line 103 replaces
every remaining `-` by `0`), so the normalizer coerces it to the number
0.0 in every designated numeric field — it does not become the
missing-value marker. -/
theorem C5_dash_coerced_to_zero :
    cleanParse "-" = some 0 ∧ cleanParse "-" ≠ none := by
  refine ⟨by decide, ?_⟩
  intro h
  rw [show cleanParse "-" = some 0 from by decide] at h
  cases h

/-- C5 amended: `"1,234,567"` coerces to 1234567.0 and `"--"` to 0.0 as
the claim states, but a bare `"-"` also coerces to 0.0; the missing-value
marker arises only when the cleaned string fails the numeric parse, as
for a non-numeric token like `"X"`. -/
theorem C5_numeric_cleaning_amended :
    cleanParse "1,234,567" = some 1234567 ∧
    cleanParse "--" = some 0 ∧
    cleanParse "-" = some 0 ∧
    cleanParse "X" = none := by
  refine ⟨by decide, by decide, by decide, by decide⟩

/-!
### Facts about cleaning, parsing and rendering, toward the row filter
-/

theorem mem_stripChars {c : Char} {cs : List Char} (h : c ∈ stripChars cs) : c ∈ cs := by
  unfold stripChars at h
  rw [List.mem_reverse] at h
  have h2 := (List.dropWhile_sublist isSpaceChar).mem h
  rw [List.mem_reverse] at h2
  exact (List.dropWhile_sublist isSpaceChar).mem h2

theorem dash_not_mem_clean (cs : List Char) : '-' ∉ clean cs := by
  intro h
  have h2 := mem_stripChars h
  unfold replaceDash at h2
  rw [List.mem_map] at h2
  rcases h2 with ⟨c, _, hc⟩
  by_cases hd : c = '-'
  · rw [if_pos hd] at hc; cases hc
  · rw [if_neg hd] at hc; exact hd hc

theorem parseUnsigned_nonneg {cs : List Char} {q : ℚ}
    (h : parseUnsigned cs = some q) : 0 ≤ q := by
  simp only [parseUnsigned] at h
  split at h
  · split at h
    · cases h
    · injection h with h'
      rw [← h']
      positivity
  · split at h
    · injection h with h'
      rw [← h']
      positivity
    · cases h
  · cases h

theorem parseDecimal_nonneg {cs : List Char} {q : ℚ}
    (hd : '-' ∉ cs) (h : parseDecimal cs = some q) : 0 ≤ q := by
  unfold parseDecimal at h
  split at h
  · exact absurd (List.mem_cons_self _ _) hd
  · exact parseUnsigned_nonneg h
  · exact parseUnsigned_nonneg h

theorem cleanParse_nonneg {s : String} {q : ℚ} (h : cleanParse s = some q) : 0 ≤ q :=
  parseDecimal_nonneg (dash_not_mem_clean _) h

theorem pyTrunc_nonneg {q : ℚ} (hq : 0 ≤ q) : 0 ≤ pyTrunc q := by
  obtain ⟨n, hn⟩ := Int.eq_ofNat_of_zero_le (Rat.num_nonneg.mpr hq)
  rw [pyTrunc, hn]
  exact Int.ofNat_nonneg _

theorem digitsRevFuel_length_le :
    ∀ (fuel n k : Nat), n < 10 ^ k → (digitsRevFuel fuel n).length ≤ k := by
  intro fuel
  induction fuel with
  | zero => intro n k _; simp [digitsRevFuel]
  | succ f ih =>
    intro n k hk
    rw [digitsRevFuel]
    by_cases hn : n = 0
    · rw [if_pos hn]; simp
    · rw [if_neg hn]
      match k with
      | 0 => omega
      | k' + 1 =>
        have hdiv : n / 10 < 10 ^ k' := by
          rw [Nat.div_lt_iff_lt_mul (by omega)]
          calc n < 10 ^ (k' + 1) := hk
            _ = 10 ^ k' * 10 := by ring
        simpa using ih (n / 10) k' hdiv

theorem digitsRevFuel_length_ge :
    ∀ (fuel k n : Nat), k + 1 ≤ fuel → 10 ^ k ≤ n →
      k + 1 ≤ (digitsRevFuel fuel n).length := by
  intro fuel
  induction fuel with
  | zero => intro k n hf _; omega
  | succ f ih =>
    intro k n hf hk
    have hn : n ≠ 0 := by
      have : 0 < 10 ^ k := Nat.pos_pow_of_pos k (by omega)
      omega
    rw [digitsRevFuel, if_neg hn]
    match k, hf with
    | 0, _ => simp
    | k' + 1, hf =>
      have hdiv : 10 ^ k' ≤ n / 10 := by
        rw [Nat.le_div_iff_mul_le (by omega)]
        calc 10 ^ k' * 10 = 10 ^ (k' + 1) := by ring
          _ ≤ n := hk
      have hf' : k' + 1 ≤ f := by omega
      have := ih k' (n / 10) hf' hdiv
      simp only [List.length_cons]
      omega

theorem digitsRevFuel_lt_ten :
    ∀ (fuel n x : Nat), x ∈ digitsRevFuel fuel n → x < 10 := by
  intro fuel
  induction fuel with
  | zero => intro n x h; simp [digitsRevFuel] at h
  | succ f ih =>
    intro n x h
    rw [digitsRevFuel] at h
    by_cases hn : n = 0
    · rw [if_pos hn] at h; simp at h
    · rw [if_neg hn] at h
      rcases List.mem_cons.mp h with h1 | h2
      · rw [h1]; exact Nat.mod_lt n (by omega)
      · exact ih (n / 10) x h2

theorem digitCh_isDigit {d : Nat} (hd : d < 10) : (digitCh d).isDigit = true := by
  interval_cases d <;> decide

theorem natStr_all_digits (n : Nat) : (natStr n).all Char.isDigit = true := by
  unfold natStr
  by_cases hn : n = 0
  · rw [if_pos hn]; decide
  · rw [if_neg hn]
    rw [List.all_eq_true]
    intro c hc
    rw [List.mem_map] at hc
    rcases hc with ⟨d, hd, hdc⟩
    rw [List.mem_reverse] at hd
    rw [← hdc]
    exact digitCh_isDigit (digitsRevFuel_lt_ten n n d hd)

/-- The filter test on an integer-rendered code is exactly the four-digit
value range: values 1000..9999 render as four digit characters, anything
else does not (in particular a code with a leading zero has lost it). -/
theorem match4_natStr (n : Nat) :
    matchFourDigits (natStr n) = true ↔ 1000 ≤ n ∧ n ≤ 9999 := by
  unfold matchFourDigits
  rw [Bool.and_eq_true, List.all_eq_true]
  constructor
  · intro ⟨hlen, _⟩
    by_cases hn : n = 0
    · rw [hn] at hlen; simp [natStr] at hlen
    · unfold natStr at hlen
      rw [if_neg hn] at hlen
      simp only [List.length_map, List.length_reverse] at hlen
      constructor
      · by_contra hlt
        have hsmall : n < 10 ^ 3 := by omega
        have := digitsRevFuel_length_le n n 3 hsmall
        simp only [decide_eq_true_eq] at hlen
        omega
      · by_contra hgt
        have hbig : 10 ^ 4 ≤ n := by omega
        have hf : 4 + 1 ≤ n := by
          have : 10 ^ 4 = 10000 := by norm_num
          omega
        have := digitsRevFuel_length_ge n 4 n hf hbig
        simp only [decide_eq_true_eq] at hlen
        omega
  · intro ⟨h1, h2⟩
    have hn : n ≠ 0 := by omega
    constructor
    · unfold natStr
      rw [if_neg hn]
      simp only [List.length_map, List.length_reverse]
      have hle := digitsRevFuel_length_le n n 4 (by norm_num; omega)
      have hge := digitsRevFuel_length_ge n 3 n (by omega) (by norm_num; omega)
      simp only [decide_eq_true_eq]
      omega
    · intro c hc
      exact List.all_eq_true.mp (natStr_all_digits n) c hc

theorem floatStr_has_dot (q : ℚ) : '.' ∈ floatStr q := by
  unfold floatStr
  exact List.mem_append_right _ (List.mem_cons_self _ _)

theorem match4_floatStr (q : ℚ) : matchFourDigits (floatStr q) = false := by
  by_contra h
  have ht : matchFourDigits (floatStr q) = true := by
    cases hm : matchFourDigits (floatStr q)
    · exact absurd hm h
    · rfl
  unfold matchFourDigits at ht
  rw [Bool.and_eq_true, List.all_eq_true] at ht
  have := ht.2 '.' (floatStr_has_dot q)
  cases this

theorem match4_nan : matchFourDigits ['n', 'a', 'n'] = false := by decide

theorem parseUnsigned_digits {cs : List Char}
    (hall : cs.all Char.isDigit = true) (hne : cs ≠ []) :
    parseUnsigned cs = some (digitsValN cs : ℚ) := by
  have htake : cs.takeWhile Char.isDigit = cs := by
    rw [List.takeWhile_eq_self_iff]
    intro a ha
    exact List.all_eq_true.mp hall a ha
  have hdrop : cs.dropWhile Char.isDigit = [] := by
    rw [List.dropWhile_eq_nil_iff]
    intro a ha
    exact List.all_eq_true.mp hall a ha
  simp only [parseUnsigned, htake, hdrop]
  rw [if_neg (by rw [List.isEmpty_iff]; exact hne)]

theorem parseDecimal_no_sign {c : Char} {rest : List Char}
    (h1 : c ≠ '-') (h2 : c ≠ '+') :
    parseDecimal (c :: rest) = parseUnsigned (c :: rest) := by
  unfold parseDecimal
  split
  · simp_all
  · simp_all
  · rfl

theorem isIntLit_no_sign {c : Char} {rest : List Char}
    (h1 : c ≠ '-') (h2 : c ≠ '+') :
    isIntLit (c :: rest) =
      (!(c :: rest).isEmpty && (c :: rest).all Char.isDigit) := by
  unfold isIntLit
  split
  · simp_all
  · simp_all
  · rfl

theorem isIntLit_parse {cs : List Char}
    (hil : isIntLit cs = true) (hd : '-' ∉ cs) :
    ∃ n : Nat, parseDecimal cs = some (n : ℚ) := by
  match cs with
  | [] => exact absurd hil (by decide)
  | c :: rest =>
    by_cases hc : c = '-'
    · exact absurd (hc ▸ List.mem_cons_self c rest) hd
    · by_cases hp : c = '+'
      · subst hp
        have hil' : (!rest.isEmpty && rest.all Char.isDigit) = true := hil
        rw [Bool.and_eq_true, Bool.not_eq_true', List.isEmpty_eq_false] at hil'
        refine ⟨digitsValN rest, ?_⟩
        show parseUnsigned rest = _
        exact parseUnsigned_digits hil'.2 hil'.1
      · rw [isIntLit_no_sign hc hp, Bool.and_eq_true, Bool.not_eq_true',
          List.isEmpty_eq_false] at hil
        refine ⟨digitsValN (c :: rest), ?_⟩
        rw [parseDecimal_no_sign hc hp]
        exact parseUnsigned_digits hil.2 hil.1

theorem renderCode_int (n : Nat) : renderCode true (some (n : ℚ)) = natStr n := by
  show intStr (n : ℚ) = natStr n
  unfold intStr
  rw [if_neg (by rw [Rat.num_natCast]; exact Int.not_lt.mpr (Int.natCast_nonneg n))]
  rw [Rat.num_natCast, Int.natAbs_ofNat]

/-!
### Claims about the row filter and volume coercion
-/

/-- C6 counterexample: the security-code column is itself numerically
coerced (line 95 includes it in the cleaning list) before the four-digit
filter runs on its string rendering.  In a batch holding `"TWA00"` and
`"2330"` the column becomes a float column (`NaN` plus `2330.0`), so the
`"2330"` row — four ASCII digits — is dropped along with everything else;
and a lone `"0050"` row (four ASCII digits) is coerced to the integer 50,
renders as `"50"`, and is dropped too. -/
theorem C6_four_digit_rows_dropped :
    processTable "20240913"
        ⟨["證券代號", "成交股數"], [["TWA00", "100"], ["2330", "200"]]⟩ = .ok [] ∧
    processTable "20240913" ⟨["證券代號", "成交股數"], [["0050", "100"]]⟩ = .ok [] :=
  ⟨rfl, rfl⟩

/-- C6 amended: the filter keeps a row exactly when the *coerced* code
value renders as four digits.  For every table with the expected fields:
every output row has a non-negative integer volume, and a missing volume
cell yields volume 0; when every cleaned code is an integer literal
(integer column dtype), the kept rows are exactly those whose numeric
code value lies in 1000..9999 (so `"2330"` is kept but `"0050"`, whose
leading zero is lost in coercion, is dropped); and when some code is not
an integer literal (float column dtype, e.g. a `"TWA00"` row present),
every row is dropped. -/
theorem C6_filter_and_volume_amended (dateStr : String) (t : TableData)
    (rows : List CanonRow)
    (hv : "成交股數" ∈ t.fields) (hi : "證券代號" ∈ t.fields)
    (h : processTable dateStr t = .ok rows) :
    (∀ r ∈ rows, 0 ≤ r.volume) ∧
    (∀ raw : List String, cleanParse (cellAt t.fields raw "成交股數") = none →
      (mkRow (formatDate dateStr) t raw).volume = 0) ∧
    (allIntCodes t = true →
      (∀ r ∈ rows, ∃ n : Nat, r.stockId = some (n : ℚ) ∧ 1000 ≤ n ∧ n ≤ 9999) ∧
      (∀ raw ∈ t.data, ∀ n : Nat, cleanParse (codeCell t raw) = some (n : ℚ) →
        1000 ≤ n → n ≤ 9999 → mkRow (formatDate dateStr) t raw ∈ rows)) ∧
    (allIntCodes t = false → rows = []) := by
  have hrows : rows =
      (t.data.filter (keepRowB (allIntCodes t) t)).map (mkRow (formatDate dateStr) t) := by
    unfold processTable at h
    rw [if_pos hv, if_pos hi] at h
    injection h with h'
    exact h'.symm
  refine ⟨?_, ?_, ?_, ?_⟩
  · intro r hr
    rw [hrows] at hr
    rcases List.mem_map.mp hr with ⟨raw, _, hmk⟩
    rw [← hmk]
    show 0 ≤ pyTrunc ((cleanParse (cellAt t.fields raw "成交股數")).getD 0)
    cases hcp : cleanParse (cellAt t.fields raw "成交股數") with
    | none => exact pyTrunc_nonneg le_rfl
    | some q => exact pyTrunc_nonneg (cleanParse_nonneg hcp)
  · intro raw hnone
    show pyTrunc ((cleanParse (cellAt t.fields raw "成交股數")).getD 0) = 0
    rw [hnone]
    decide
  · intro hAll
    have hAll' := List.all_eq_true.mp hAll
    constructor
    · intro r hr
      rw [hrows] at hr
      rcases List.mem_map.mp hr with ⟨raw, hrawf, hmk⟩
      rcases List.mem_filter.mp hrawf with ⟨hraw, hkeep⟩
      rw [hAll] at hkeep
      rcases isIntLit_parse (hAll' raw hraw) (dash_not_mem_clean _) with ⟨n, hn⟩
      have hcp : cleanParse (codeCell t raw) = some (n : ℚ) := hn
      unfold keepRowB at hkeep
      rw [hcp, renderCode_int, match4_natStr] at hkeep
      refine ⟨n, ?_, hkeep.1, hkeep.2⟩
      rw [← hmk]
      exact hcp
    · intro raw hraw n hn h1 h2
      have hkeep : keepRowB (allIntCodes t) t raw = true := by
        rw [hAll]
        unfold keepRowB
        rw [hn, renderCode_int, match4_natStr]
        exact ⟨h1, h2⟩
      rw [hrows]
      exact List.mem_map_of_mem _ (List.mem_filter.mpr ⟨hraw, hkeep⟩)
  · intro hAll
    rw [hrows]
    have hfil : t.data.filter (keepRowB (allIntCodes t) t) = [] := by
      rw [List.filter_eq_nil_iff]
      intro raw _
      rw [hAll]
      unfold keepRowB
      cases hcp : cleanParse (codeCell t raw) with
      | none => decide
      | some q =>
        show ¬matchFourDigits (floatStr q) = true
        rw [match4_floatStr]
        decide
    rw [hfil]
    rfl

/-- Witness for C6: a table whose codes all parse as integers keeps
exactly the `"2330"` row (volume `"1,000"` → 1000) and drops `"0050"`
and `"12345"`. -/
theorem C6_filter_and_volume_witness :
    ("成交股數" ∈ (["證券代號", "成交股數"] : List String)) ∧
    processTable "20240913"
        ⟨["證券代號", "成交股數"],
          [["2330", "1,000"], ["0050", "5"], ["12345", "3"]]⟩ =
      .ok [⟨"2024-09-13", some 2330, none, 1000⟩] ∧
    (∀ r ∈ [(⟨"2024-09-13", some 2330, none, 1000⟩ : CanonRow)], 0 ≤ r.volume) :=
  ⟨by decide, rfl,
   (C6_filter_and_volume_amended "20240913"
     ⟨["證券代號", "成交股數"], [["2330", "1,000"], ["0050", "5"], ["12345", "3"]]⟩
     [⟨"2024-09-13", some 2330, none, 1000⟩]
     (by decide) (by decide) rfl).1⟩
